import Mathlib

/-!
Shallow embedding of `src/socketly.ts` (class `Socketly`), a resilient
WebSocket client wrapper: connection lifecycle with exponential-backoff
reconnection, an outbound message queue flushed on open, and a typed
pub/sub event hub with a wildcard channel.

Modelling conventions:
- The transport (WebSocket) is the external collaborator: its readiness is
  the `readyState` field, construction of a handle increments
  `socketsCreated`, and `handle.send` appends to `sentLog`.
- Serialization (JSON.stringify / JSON.parse) is the opaque external
  encode/decode pair: `send` is parametrised by an encoder, `handleMessage`
  by a decoder returning `Except` (JSON.parse throws on malformed input).
- Calls to the private method `#emit` are recorded in `emitTrace` in order;
  the per-call fan-out to subscribers is the pure function `emitCalls` over
  the listener registry.
- JS `Map<Event, Set<Callback>>` is an association list from event-kind
  strings to insertion-ordered duplicate-free lists of callback
  identities (JS `Set` iterates in insertion order; `add` appends when the
  element is absent, `delete` removes it).
- `setTimeout(() => this.connectAgain(), delay)` is recorded as a pending
  timer; the environment fires timers via the `Act.timerFire` action, whose
  callback runs `connect` unconditionally, exactly as in the source.
- `maxRetries` defaults to `Infinity`; it is modelled as `Option Nat` with
  `none` standing for the unbounded default.
-/

namespace Socketly

/-- The constant `MAX_DELAY` from the source. -/
def MAX_DELAY : Nat := 30000

/-- WebSocket readyState codes (CONNECTING=0, OPEN=1, CLOSING=2, CLOSED=3). -/
inductive ReadyState where
  | CONNECTING
  | OPEN
  | CLOSING
  | CLOSED
deriving DecidableEq

/-- The test `readyState === WebSocket.OPEN` used by `send` and
`flushMessageQueue`. -/
def isOpenState : ReadyState → Bool
  | .OPEN => true
  | _ => false

/-- Payload attached to an `emit` call. -/
inductive EData where
  /-- No payload (`open`, `close`). -/
  | noData
  /-- The `reconnect` payload `(attempt, delay)` (post-increment attempt). -/
  | reconnect (attempt delay : Nat)
  /-- A decoded incoming message value. -/
  | msg (v : String)
  /-- A normalized error value, identified by its message string. -/
  | err (e : String)
deriving DecidableEq

/-- A JS value thrown by an external call: either an `Error` instance
carrying a message, or any non-`Error` value. -/
inductive Thrown where
  | errObj (m : String)
  | other
deriving DecidableEq

/-- Normalization in the catch block of `connect`:
`error instanceof Error ? error : new Error(an unknown error occurred)`. -/
def normalizeConnectError : Thrown → String
  | .errObj m => m
  | .other => "An unknown error occurred"

/-- Normalization in the catch block of `handleMessage`:
`error instanceof Error ? error : new Error(failed to parse message)`. -/
def normalizeParseError : Thrown → String
  | .errObj m => m
  | .other => "Failed to parse message"

/-- Listener registry: `Map<WebSocketEvent, Set<EventCallback>>`, with
callbacks as identities (`Nat`) and each `Set` as an insertion-ordered
duplicate-free list. -/
abbrev Listeners := List (String × List Nat)

/-- Lookup, i.e. `Map.get` with a missing key giving the empty set. -/
def lookup : Listeners → String → List Nat
  | [], _ => []
  | (k, s) :: rest, ev => if k = ev then s else lookup rest ev

/-- Addition to a JS `Set`: appends the callback when absent, otherwise leaves the set
unchanged. -/
def setAdd (xs : List Nat) (c : Nat) : List Nat :=
  if c ∈ xs then xs else xs ++ [c]

/-- Deletion from a JS `Set`: removes the callback reference from the set. -/
def setDel (xs : List Nat) (c : Nat) : List Nat :=
  xs.filter (fun x => x ≠ c)

/-- Method `on(event, callback)`: fetches (or creates) the set for the kind and
adds the callback. -/
def onReg : Listeners → String → Nat → Listeners
  | [], ev, c => [(ev, [c])]
  | (k, s) :: rest, ev, c =>
    if k = ev then (k, setAdd s c) :: rest else (k, s) :: onReg rest ev c

/-- Method `off(event, callback)`: deletes the callback from the set of the kind,
when that set exists. -/
def offReg : Listeners → String → Nat → Listeners
  | [], _, _ => []
  | (k, s) :: rest, ev, c =>
    if k = ev then (k, setDel s c) :: rest else (k, s) :: offReg rest ev c

/-- What a subscriber invocation delivers: the plain data for an exact-kind
subscriber, or the `(event, data)` envelope for a wildcard subscriber. -/
inductive Delivered where
  | direct (d : EData)
  | envelope (kind : String) (d : EData)
deriving DecidableEq

/-- The fan-out of one `emit(event, data)` call: first every subscriber of
the kind is invoked with the data, then every wildcard subscriber with the
envelope, all inside the call. -/
def emitCalls (ls : Listeners) (ev : String) (d : EData) :
    List (Nat × Delivered) :=
  (lookup ls ev).map (fun c => (c, Delivered.direct d))
    ++ (lookup ls "*").map (fun c => (c, Delivered.envelope ev d))

/-- The fan-out of a sequence of `emit` calls against a fixed registry. -/
def emitAll (ls : Listeners) : List (String × EData) → List (Nat × Delivered)
  | [] => []
  | e :: rest => emitCalls ls e.1 e.2 ++ emitAll ls rest

/-- The envelope deliveries received by the wildcard subscriber `w`, each
projected to its `(kind, data)` tag. -/
def envelopesTo (w : Nat) (calls : List (Nat × Delivered)) :
    List (String × EData) :=
  calls.filterMap (fun p =>
    match p with
    | (c, Delivered.envelope k d) => if c = w then some (k, d) else none
    | _ => none)

/-- The instance state of a `Socketly` object, together with the
observables of its interaction with the transport. -/
structure St where
  /-- Option `reconnectInterval` (base backoff unit, default 3000). -/
  reconnectInterval : Nat
  /-- Option `maxRetries`; `none` models the default `Infinity`. -/
  maxRetries : Option Nat
  /-- The private field `retryCount`. -/
  retryCount : Nat
  /-- `abortController.signal.aborted` (the Cancellation Flag). -/
  aborted : Bool
  /-- The private field `messageQueue` of serialized payload strings. -/
  messageQueue : List String
  /-- The private field `eventListeners`. -/
  eventListeners : Listeners
  /-- readyState of the current transport handle. -/
  readyState : ReadyState
  /-- How many transport handles (`new WebSocket`) were constructed. -/
  socketsCreated : Nat
  /-- Delays of reconnect timers scheduled by `setTimeout` and not yet
  fired, oldest first. -/
  pendingTimers : List Nat
  /-- Every call to the private `emit`, in order. -/
  emitTrace : List (String × EData)
  /-- Every string passed to `socket.send`, in order. -/
  sentLog : List String
deriving DecidableEq

/-- Record one call of the private method `emit(event, data)`. -/
def emit (ev : String) (d : EData) (s : St) : St :=
  { s with emitTrace := s.emitTrace ++ [(ev, d)] }

/-- Method `exponentialBackoff(attempt)`:
`Math.min(reconnectInterval * Math.pow(2, attempt), MAX_DELAY)`. -/
def exponentialBackoff (base attempt : Nat) : Nat :=
  min (base * 2 ^ attempt) MAX_DELAY

/-- The comparison `retryCount < maxRetries`; any count is below
`Infinity`. -/
def ltMaxRetries (r : Nat) : Option Nat → Bool
  | none => true
  | some k => r < k

/-- Handler `handleError(error)`: logs, then emits `error` with the (already
normalized) error value. It changes no other state. -/
def handleError (e : String) (s : St) : St :=
  emit "error" (.err e) s

/-- Method `connect()`: constructs a new transport handle; when construction
throws, the catch block normalizes the thrown value and routes it to
`handleError`. The outcome of the external constructor is an input. -/
inductive ConnectOutcome where
  | ok
  | thrown (t : Thrown)
deriving DecidableEq

/-- Method `connect()` under a given constructor outcome. On success a fresh
handle exists (in state CONNECTING); on a throw the old handle field is
left as it was and only the error path runs. -/
def connect (out : ConnectOutcome) (s : St) : St :=
  match out with
  | .ok =>
    { s with socketsCreated := s.socketsCreated + 1
             readyState := ReadyState.CONNECTING }
  | .thrown t => handleError (normalizeConnectError t) s

/-- The while loop of `flushMessageQueue`: while the queue is non-empty and
the readiness flag holds, shift the front and send it when truthy (a JS
string is truthy iff non-empty). Returns the final queue and send log. -/
def flushLoop (ready : Bool) : List String → List String →
    List String × List String
  | [], sent => ([], sent)
  | m :: rest, sent =>
    if ready then
      flushLoop ready rest (if m = "" then sent else sent ++ [m])
    else (m :: rest, sent)

/-- Method `flushMessageQueue()`. -/
def flushMessageQueue (s : St) : St :=
  let r := flushLoop (isOpenState s.readyState) s.messageQueue s.sentLog
  { s with messageQueue := r.1, sentLog := r.2 }

/-- Handler `handleOpen`: reset the retry counter, flush the queue, emit `open`. -/
def handleOpen (s : St) : St :=
  emit "open" .noData (flushMessageQueue { s with retryCount := 0 })

/-- Handler `handleClose`: emit `close`; when `retryCount < maxRetries` and the
abort signal is not set, compute the backoff from the pre-increment
counter, increment it, emit `reconnect` with the post-increment attempt,
and schedule a deferred `connect` via `setTimeout`. -/
def handleClose (s : St) : St :=
  let s1 := emit "close" .noData s
  if ltMaxRetries s1.retryCount s1.maxRetries && !s1.aborted then
    let delay := exponentialBackoff s1.reconnectInterval s1.retryCount
    let s2 := { s1 with retryCount := s1.retryCount + 1 }
    let s3 := emit "reconnect" (.reconnect s2.retryCount delay) s2
    { s3 with pendingTimers := s3.pendingTimers ++ [delay] }
  else s1

/-- Handler `handleMessage(event)`: decode the raw payload; on success emit
`message` with (a structured clone of) the value, on a decode throw
normalize and route to `handleError`. -/
def handleMessage (dec : String → Except Thrown String) (raw : String)
    (s : St) : St :=
  match dec raw with
  | .ok v => emit "message" (.msg v) s
  | .error t => handleError (normalizeParseError t) s

/-- The routing step of `send` after serialization: transmit immediately
when the transport is open, otherwise push onto the queue. -/
def sendRaw (m : String) (s : St) : St :=
  if isOpenState s.readyState then
    { s with sentLog := s.sentLog ++ [m] }
  else
    { s with messageQueue := s.messageQueue ++ [m] }

/-- Method `send(data)`: `JSON.stringify` the payload, then route. The encoder is
the opaque serialization collaborator; the payload type is constrained to
be serializable, so encoding is total. -/
def send {V : Type} (encode : V → String) (v : V) (s : St) : St :=
  sendRaw (encode v) s

/-- Method `close()`: set the abort flag, clear every subscriber set, close the
transport handle (a no-op on an already CLOSED socket, otherwise the
handle moves to CLOSING). -/
def close (s : St) : St :=
  { s with
    aborted := true
    eventListeners := s.eventListeners.map (fun p => (p.1, ([] : List Nat)))
    readyState :=
      if s.readyState = ReadyState.CLOSED ∨ s.readyState = ReadyState.CLOSING
      then s.readyState else ReadyState.CLOSING }

/-- Environment actions driving the instance: transport events, timer
firings and public API calls. `callSend` carries the already-serialized
string. -/
inductive Act where
  /-- The transport fires `open` (its readyState became OPEN). -/
  | transportOpen
  /-- The transport fires `close` (its readyState became CLOSED). -/
  | transportClose
  /-- The oldest pending reconnect timer fires; its callback runs
  `connect`, whose constructor outcome is chosen by the environment. -/
  | timerFire (out : ConnectOutcome)
  /-- The user calls `close()`. -/
  | callClose
  /-- The user calls `send`; the argument is the serialized payload. -/
  | callSend (m : String)
deriving DecidableEq

/-- One step of the instance under an environment action. -/
def step (s : St) : Act → St
  | .transportOpen => handleOpen { s with readyState := ReadyState.OPEN }
  | .transportClose => handleClose { s with readyState := ReadyState.CLOSED }
  | .timerFire out =>
    match s.pendingTimers with
    | [] => s
    | _ :: rest => connect out { s with pendingTimers := rest }
  | .callClose => close s
  | .callSend m => sendRaw m s

/-- Run a sequence of environment actions. -/
def run (s : St) (as : List Act) : St := as.foldl step s

/-- The instance fields right before the constructor calls `connect`. -/
def initState (reconnectInterval : Nat) (maxRetries : Option Nat) : St :=
  { reconnectInterval := reconnectInterval
    maxRetries := maxRetries
    retryCount := 0
    aborted := false
    messageQueue := []
    eventListeners := []
    readyState := ReadyState.CONNECTING
    socketsCreated := 0
    pendingTimers := []
    emitTrace := []
    sentLog := [] }

/-- The constructor: store the options, then `connect`. -/
def construct (reconnectInterval : Nat) (maxRetries : Option Nat)
    (out : ConnectOutcome) : St :=
  connect out (initState reconnectInterval maxRetries)

/-- The `reconnect` emissions of a state, as `(attempt, delay)` pairs in
order. -/
def reconnectEvents (s : St) : List (Nat × Nat) :=
  s.emitTrace.filterMap (fun e =>
    match e with
    | ("reconnect", EData.reconnect a d) => some (a, d)
    | _ => none)

end Socketly

namespace Socketly

/-- C3: the backoff policy is the pure deterministic function
`delay(attempt) = min(baseIntervalMs * 2^attempt, 30000)`; with base 3000,
attempt 0 gives 3000, attempt 3 gives 24000 and attempt 10 is capped at
30000. -/
theorem C3_backoff_formula (base attempt : Nat) :
    exponentialBackoff base attempt = min (base * 2 ^ attempt) 30000
    ∧ exponentialBackoff 3000 0 = 3000
    ∧ exponentialBackoff 3000 3 = 24000
    ∧ exponentialBackoff 3000 10 = 30000 := by
  refine ⟨rfl, by decide, by decide, by decide⟩

/-- C1: evaluation of the code at the failing input. A transport close
schedules a reconnect timer; `close()` then sets the Cancellation Flag
while exactly one transport handle has ever been created; when the pending
timer fires, its callback runs `connect` with no abort check, so a second
transport handle is created although the flag is true. -/
theorem C1_pending_timer_fires_after_abort :
    (run (construct 3000 none .ok) [.transportClose, .callClose]).aborted = true
    ∧ (run (construct 3000 none .ok)
        [.transportClose, .callClose]).socketsCreated = 1
    ∧ (run (construct 3000 none .ok)
        [.transportClose, .callClose, .timerFire .ok]).aborted = true
    ∧ (run (construct 3000 none .ok)
        [.transportClose, .callClose, .timerFire .ok]).socketsCreated = 2 := by
  refine ⟨rfl, rfl, rfl, rfl⟩

/-- Every step of the machine leaves the `maxRetries` option unchanged. -/
theorem step_maxRetries (s : St) (a : Act) :
    (step s a).maxRetries = s.maxRetries := by
  cases a with
  | transportOpen => simp [step, handleOpen, emit, flushMessageQueue]
  | transportClose =>
    simp only [step, handleClose, emit]
    split <;> simp
  | timerFire out =>
    simp only [step]
    cases s.pendingTimers with
    | nil => rfl
    | cons d rest => cases out <;> simp [connect, handleError, emit]
  | callClose => simp [step, close]
  | callSend m =>
    simp only [step, sendRaw]
    split <;> simp

/-- When `maxRetries = some k`, a single `handleClose` keeps the retry
counter at most `k`. -/
theorem handleClose_retryCount_le (s : St) (k : Nat)
    (hm : s.maxRetries = some k) (h : s.retryCount ≤ k) :
    (handleClose s).retryCount ≤ k := by
  simp only [handleClose, emit]
  split
  · rename_i hcond
    simp only [ltMaxRetries, hm, Bool.and_eq_true, decide_eq_true_eq] at hcond
    simpa using hcond.1
  · simpa using h

/-- When `maxRetries = some k`, every step keeps the retry counter at most
`k`. -/
theorem step_retryCount_le (s : St) (k : Nat) (a : Act)
    (hm : s.maxRetries = some k) (h : s.retryCount ≤ k) :
    (step s a).retryCount ≤ k := by
  cases a with
  | transportOpen => simp [step, handleOpen, emit, flushMessageQueue]
  | transportClose =>
    exact handleClose_retryCount_le { s with readyState := ReadyState.CLOSED }
      k hm h
  | timerFire out =>
    simp only [step]
    cases s.pendingTimers with
    | nil => exact h
    | cons d rest => cases out <;> simpa [connect, handleError, emit] using h
  | callClose => simpa [step, close] using h
  | callSend m =>
    simp only [step, sendRaw]
    split <;> simpa using h

/-- When `maxRetries = some k`, the retry counter stays at most `k` along
every run. -/
theorem run_retryCount_le (s : St) (k : Nat) (hm : s.maxRetries = some k)
    (h : s.retryCount ≤ k) (as : List Act) : (run s as).retryCount ≤ k := by
  induction as generalizing s with
  | nil => exact h
  | cons a rest ih =>
    have hm' : (step s a).maxRetries = some k := by
      rw [step_maxRetries]; exact hm
    have h' := step_retryCount_le s k a hm h
    simpa [run, List.foldl_cons] using ih (step s a) hm' h'

/-- C2: a close event schedules a reconnect iff the attempt counter is
strictly below `maxRetries` and the cancellation flag is false; when it
does, the counter is incremented exactly once and one `reconnect` event is
emitted, and otherwise neither happens; the counter never exceeds
`maxRetries` along any run; and with `maxRetries=2, reconnectInterval=100`
three consecutive transport close events produce exactly the two
`reconnect` events `(1, 100)` and `(2, 200)`. -/
theorem C2_retry_policy (s : St) (k : Nat) (hm : s.maxRetries = some k)
    (h0 : s.retryCount ≤ k) :
    (∀ as : List Act, (run s as).retryCount ≤ k)
    ∧ (s.retryCount < k ∧ s.aborted = false →
        (handleClose s).pendingTimers = s.pendingTimers ++
          [exponentialBackoff s.reconnectInterval s.retryCount]
        ∧ (handleClose s).retryCount = s.retryCount + 1
        ∧ (handleClose s).emitTrace = s.emitTrace ++
          [("close", EData.noData),
           ("reconnect", EData.reconnect (s.retryCount + 1)
             (exponentialBackoff s.reconnectInterval s.retryCount))])
    ∧ (¬(s.retryCount < k ∧ s.aborted = false) →
        (handleClose s).pendingTimers = s.pendingTimers
        ∧ (handleClose s).retryCount = s.retryCount
        ∧ (handleClose s).emitTrace = s.emitTrace ++ [("close", EData.noData)])
    ∧ reconnectEvents (run (construct 100 (some 2) .ok)
        [.transportClose, .transportClose, .transportClose])
      = [(1, 100), (2, 200)] := by
  refine ⟨fun as => run_retryCount_le s k hm h0 as, ?_, ?_, ?_⟩
  · intro hc
    have hcnd : (ltMaxRetries s.retryCount s.maxRetries && !s.aborted) = true := by
      simp [ltMaxRetries, hm, hc.1, hc.2]
    simp [handleClose, emit, hcnd]
  · intro hc
    cases hb : (ltMaxRetries s.retryCount s.maxRetries && !s.aborted) with
    | false => simp [handleClose, emit, hb]
    | true =>
      exfalso
      apply hc
      simp only [ltMaxRetries, hm, Bool.and_eq_true, decide_eq_true_eq,
        Bool.not_eq_true'] at hb
      exact hb
  · decide

/-- Witness for C2 at a concrete instance. -/
theorem C2_retry_policy_witness :
    reconnectEvents (run (construct 100 (some 2) .ok)
        [.transportClose, .transportClose, .transportClose])
      = [(1, 100), (2, 200)] :=
  (C2_retry_policy (construct 100 (some 2) .ok) 2 rfl (by decide)).2.2.2

/-- When the readiness flag holds and every queued string is non-empty
(every serialized payload is), the flush loop drains the queue and sends
each element once, in order. -/
theorem flushLoop_all (q sent : List String) (h : ∀ m ∈ q, m ≠ "") :
    flushLoop true q sent = ([], sent ++ q) := by
  induction q generalizing sent with
  | nil => simp [flushLoop]
  | cons m rest ih =>
    have hm : ¬ m = "" := h m (by simp)
    have hr : ∀ x ∈ rest, x ≠ "" := fun x hx => h x (by simp [hx])
    simp [flushLoop, hm, ih _ hr]

/-- The queue left by the flush loop is never longer than the starting
queue. -/
theorem flushLoop_fst_length (ready : Bool) (q sent : List String) :
    (flushLoop ready q sent).1.length ≤ q.length := by
  induction q generalizing sent with
  | nil => simp [flushLoop]
  | cons m rest ih =>
    cases ready with
    | false => simp [flushLoop]
    | true =>
      simp only [flushLoop, if_true]
      exact le_trans (ih _) (by simp)

/-- A transport `open` event flushes a queue of non-empty strings
completely, in order, and leaves the transport open. -/
theorem step_transportOpen_flush (s : St)
    (h : ∀ m ∈ s.messageQueue, m ≠ "") :
    (step s Act.transportOpen).messageQueue = []
    ∧ (step s Act.transportOpen).sentLog = s.sentLog ++ s.messageQueue
    ∧ (step s Act.transportOpen).readyState = ReadyState.OPEN := by
  simp [step, handleOpen, emit, flushMessageQueue, isOpenState,
    flushLoop_all _ _ h]

/-- Sends issued while the transport is not open only grow the queue. -/
theorem run_callSend_closed (s : St) (msgs : List String)
    (h : isOpenState s.readyState = false) :
    (run s (msgs.map Act.callSend)).messageQueue = s.messageQueue ++ msgs
    ∧ (run s (msgs.map Act.callSend)).sentLog = s.sentLog
    ∧ (run s (msgs.map Act.callSend)).readyState = s.readyState := by
  induction msgs generalizing s with
  | nil => simp [run]
  | cons m rest ih =>
    have hstep : step s (Act.callSend m)
        = { s with messageQueue := s.messageQueue ++ [m] } := by
      simp [step, sendRaw, h]
    obtain ⟨a, b, c⟩ := ih { s with messageQueue := s.messageQueue ++ [m] } h
    refine ⟨?_, ?_, ?_⟩ <;>
      simp only [List.map_cons, run, List.foldl_cons, hstep] <;>
      simp_all [run]

/-- Sends issued while the transport is open are transmitted directly, in
order. -/
theorem run_callSend_open (s : St) (msgs : List String)
    (h : isOpenState s.readyState = true) :
    (run s (msgs.map Act.callSend)).sentLog = s.sentLog ++ msgs := by
  induction msgs generalizing s with
  | nil => simp [run]
  | cons m rest ih =>
    have hstep : step s (Act.callSend m)
        = { s with sentLog := s.sentLog ++ [m] } := by
      simp [step, sendRaw, h]
    have := ih { s with sentLog := s.sentLog ++ [m] } h
    simp only [List.map_cons, run, List.foldl_cons, hstep]
    simp_all [run]

/-- C4: with the transport not open and an empty queue, every `send`
appends exactly one serialized entry; the transport `open` event transmits
all queued entries in enqueue order with zero loss and zero duplication;
and every queued entry is transmitted before any direct send issued after
the open. Serialized payloads are non-empty strings (the serialization
collaborator never encodes to the empty string). -/
theorem C4_offline_queue_flush {V : Type} (encode : V → String)
    (payloads : List V) (post : List String) (s : St)
    (hready : isOpenState s.readyState = false)
    (hq : s.messageQueue = [])
    (hne : ∀ v ∈ payloads, encode v ≠ "") :
    (∀ (m : String) (t : St), isOpenState t.readyState = false →
       (sendRaw m t).messageQueue = t.messageQueue ++ [m]
       ∧ (sendRaw m t).sentLog = t.sentLog)
    ∧ (run s ((payloads.map encode).map Act.callSend)).messageQueue
        = payloads.map encode
    ∧ (run s ((payloads.map encode).map Act.callSend)).sentLog = s.sentLog
    ∧ (step (run s ((payloads.map encode).map Act.callSend))
        Act.transportOpen).messageQueue = []
    ∧ (step (run s ((payloads.map encode).map Act.callSend))
        Act.transportOpen).sentLog = s.sentLog ++ payloads.map encode
    ∧ (run (step (run s ((payloads.map encode).map Act.callSend))
          Act.transportOpen) (post.map Act.callSend)).sentLog
        = s.sentLog ++ payloads.map encode ++ post := by
  obtain ⟨hq1, hs1, hr1⟩ :=
    run_callSend_closed s (payloads.map encode) hready
  have hq1' : (run s ((payloads.map encode).map Act.callSend)).messageQueue
      = payloads.map encode := by rw [hq1, hq]; simp
  have hne' : ∀ m ∈
      (run s ((payloads.map encode).map Act.callSend)).messageQueue,
      m ≠ "" := by
    rw [hq1']
    intro m hm
    obtain ⟨v, hv, rfl⟩ := List.mem_map.mp hm
    exact hne v hv
  obtain ⟨ho1, ho2, ho3⟩ :=
    step_transportOpen_flush (run s ((payloads.map encode).map Act.callSend))
      hne'
  refine ⟨?_, hq1', ?_, ho1, ?_, ?_⟩
  · intro m t ht
    constructor <;> simp [sendRaw, ht]
  · exact hs1
  · rw [ho2, hs1, hq1']
  · rw [run_callSend_open _ post (by rw [ho3]; rfl), ho2, hs1, hq1']

/-- Witness for C4 at a concrete instance: two sends while connecting, the
open event, then one direct send. -/
theorem C4_offline_queue_flush_witness :
    (run (step (run (construct 3000 none .ok)
        (([ "m1", "m2" ].map (fun m : String => m)).map Act.callSend))
        Act.transportOpen) ([ "m3" ].map Act.callSend)).sentLog
      = [] ++ [ "m1", "m2" ].map (fun m : String => m) ++ [ "m3" ] :=
  (C4_offline_queue_flush (fun m : String => m) ["m1", "m2"] ["m3"]
      (construct 3000 none .ok) rfl rfl (by decide)).2.2.2.2.2

/-- C5: `send(payload)` first serializes the payload; when the transport
is open it transmits the serialized string immediately, otherwise it
appends it to the outbound queue; it is a total function on states (no
exception reaches the caller; the payload type is constrained to be
serializable, so the encoder is total). -/
theorem C5_send_routing {V : Type} (encode : V → String) (v : V) (s : St) :
    (isOpenState s.readyState = true →
       send encode v s = { s with sentLog := s.sentLog ++ [encode v] })
    ∧ (isOpenState s.readyState = false →
       send encode v s
         = { s with messageQueue := s.messageQueue ++ [encode v] }) := by
  constructor <;> intro h <;> simp [send, sendRaw, h]

/-- Witness for C5 at a concrete instance (transport still connecting, so
the payload is queued). -/
theorem C5_send_routing_witness :
    isOpenState (construct 3000 none .ok).readyState = false
    ∧ send (fun m : String => m) "hello" (construct 3000 none .ok)
      = { construct 3000 none .ok with
          messageQueue := (construct 3000 none .ok).messageQueue ++ ["hello"] } :=
  ⟨rfl, (C5_send_routing (fun m : String => m) "hello"
      (construct 3000 none .ok)).2 rfl⟩

/-- C10: the flush loop terminates on every starting queue (it is a total
structurally recursive function); one iteration removes exactly the front
element, so the residual queue never grows; and when the readiness
predicate holds throughout, the flush ends with an empty queue having sent
each (non-empty, i.e. serialized) element once in original order. -/
theorem C10_flush_termination (s : St) (hr : s.readyState = ReadyState.OPEN)
    (hne : ∀ m ∈ s.messageQueue, m ≠ "") :
    (∀ (m : String) (rest sent : List String),
       flushLoop true (m :: rest) sent
         = flushLoop true rest (if m = "" then sent else sent ++ [m]))
    ∧ (∀ (ready : Bool) (q sent : List String),
        (flushLoop ready q sent).1.length ≤ q.length)
    ∧ (flushMessageQueue s).messageQueue = []
    ∧ (flushMessageQueue s).sentLog = s.sentLog ++ s.messageQueue := by
  refine ⟨fun m rest sent => by simp [flushLoop],
    flushLoop_fst_length, ?_, ?_⟩ <;>
    simp [flushMessageQueue, hr, isOpenState, flushLoop_all _ _ hne]

/-- Witness for C10 at a concrete open state with a two-element queue. -/
theorem C10_flush_termination_witness :
    (flushMessageQueue { construct 3000 none .ok with
        readyState := ReadyState.OPEN
        messageQueue := ["a", "b"] }).messageQueue = []
    ∧ (flushMessageQueue { construct 3000 none .ok with
        readyState := ReadyState.OPEN
        messageQueue := ["a", "b"] }).sentLog = [] ++ ["a", "b"] :=
  ⟨(C10_flush_termination _ rfl (by decide)).2.2.1,
   (C10_flush_termination _ rfl (by decide)).2.2.2⟩

/-- C6 counterexample: from the freshly constructed (retry-eligible, not
aborted) instance state, a throwing transport constructor emits only the
normalized `error` event, schedules no reconnect timer and leaves the
counter untouched, whereas the close path on the very same state emits
`close` and `reconnect` and schedules a timer — so a construction failure
is not treated identically to a transport close and no retry-eligibility
evaluation takes place. -/
theorem C6_counterexample :
    (construct 3000 none (.thrown .other)).emitTrace
      = [("error", EData.err "An unknown error occurred")]
    ∧ (construct 3000 none (.thrown .other)).pendingTimers = []
    ∧ (construct 3000 none (.thrown .other)).retryCount = 0
    ∧ (handleClose (initState 3000 none)).emitTrace
      = [("close", EData.noData), ("reconnect", EData.reconnect 1 3000)]
    ∧ (handleClose (initState 3000 none)).pendingTimers = [3000] := by
  refine ⟨rfl, rfl, rfl, by decide, by decide⟩

/-- C6 amended: when transport construction throws, the thrown value is
normalized (an `Error` is passed as-is, any other value is wrapped in the
descriptive unknown-error `Error`) and surfaced as a single `error` event;
nothing else happens — no close handling, no retry-eligibility evaluation,
no timer, no counter change; reconnection is driven only by transport
close events. -/
theorem C6_construction_failure (t : Thrown) (s : St) :
    (connect (.thrown t) s).emitTrace
      = s.emitTrace ++ [("error", EData.err (normalizeConnectError t))]
    ∧ (∀ m, normalizeConnectError (Thrown.errObj m) = m)
    ∧ normalizeConnectError Thrown.other = "An unknown error occurred"
    ∧ (connect (.thrown t) s).pendingTimers = s.pendingTimers
    ∧ (connect (.thrown t) s).retryCount = s.retryCount
    ∧ (connect (.thrown t) s).socketsCreated = s.socketsCreated
    ∧ (connect (.thrown t) s).messageQueue = s.messageQueue
    ∧ (connect (.thrown t) s).aborted = s.aborted := by
  refine ⟨rfl, fun m => rfl, rfl, rfl, rfl, rfl, rfl, rfl⟩

/-- C7: when decoding an incoming payload fails, the instance emits one
`error` event with the normalized parse error, emits no `message` event
for that payload, and changes nothing else: the readiness of the transport
handle, the queue, the counters, the timers and the flag all stay as they
were (in particular the connection is not closed). -/
theorem C7_decode_failure (dec : String → Except Thrown String)
    (raw : String) (t : Thrown) (s : St) (h : dec raw = .error t) :
    (handleMessage dec raw s).emitTrace
      = s.emitTrace ++ [("error", EData.err (normalizeParseError t))]
    ∧ (∀ d, ("message", d) ∉
        (handleMessage dec raw s).emitTrace.drop s.emitTrace.length)
    ∧ (handleMessage dec raw s).readyState = s.readyState
    ∧ (handleMessage dec raw s).socketsCreated = s.socketsCreated
    ∧ (handleMessage dec raw s).pendingTimers = s.pendingTimers
    ∧ (handleMessage dec raw s).messageQueue = s.messageQueue
    ∧ (handleMessage dec raw s).retryCount = s.retryCount
    ∧ (handleMessage dec raw s).aborted = s.aborted := by
  simp only [handleMessage, h, handleError, emit]
  refine ⟨trivial, ?_, trivial, trivial, trivial, trivial, trivial, trivial⟩
  intro d
  rw [List.drop_left]
  simp

/-- Witness for C7 at a concrete decoder that fails on a concrete raw
payload. -/
theorem C7_decode_failure_witness :
    (handleMessage (fun _ => Except.error Thrown.other) "nonsense"
        (construct 3000 none .ok)).emitTrace
      = [("error", EData.err "Failed to parse message")] := by
  have h := C7_decode_failure (fun _ => Except.error Thrown.other) "nonsense"
      Thrown.other (construct 3000 none .ok) rfl
  simpa using h.1

/-- Picking (with a fixed image) the occurrences of `w` from a list that
contains `w` exactly once yields exactly one image. -/
theorem filterMap_ite_one {β : Type} (xs : List Nat) (w : Nat) (b : β)
    (h : xs.count w = 1) :
    xs.filterMap (fun c => if c = w then some b else none) = [b] := by
  induction xs with
  | nil => simp at h
  | cons x rest ih =>
    by_cases hx : x = w
    · subst hx
      have h0 : rest.count x = 0 := by
        have := List.count_cons_self x rest
        omega
      have hnot : x ∉ rest := List.count_eq_zero.mp h0
      rw [List.filterMap_cons]
      simp only [if_pos rfl]
      have hnil : rest.filterMap (fun c => if c = x then some b else none)
          = [] := by
        rw [List.filterMap_eq_nil_iff]
        intro a ha
        have hax : a ≠ x := fun hax => hnot (hax ▸ ha)
        simp [hax]
      simp [hnil]
    · have h' : rest.count w = 1 := by
        rw [List.count_cons] at h
        simp [hx] at h
        omega
      rw [List.filterMap_cons]
      simp only [if_neg hx]
      exact ih h'

/-- Picking the occurrences of an absent `w` yields nothing. -/
theorem filterMap_ite_nil {β : Type} (xs : List Nat) (w : Nat) (b : β)
    (h : w ∉ xs) :
    xs.filterMap (fun c => if c = w then some b else none) = [] := by
  rw [List.filterMap_eq_nil_iff]
  intro a ha
  have hax : a ≠ w := fun hax => h (hax ▸ ha)
  simp [hax]

/-- Registering under a kind updates the set looked up at that kind by
`setAdd`. -/
theorem lookup_onReg (ls : Listeners) (ev : String) (c : Nat) :
    lookup (onReg ls ev c) ev = setAdd (lookup ls ev) c := by
  induction ls with
  | nil => simp [onReg, lookup, setAdd]
  | cons p rest ih =>
    obtain ⟨k, s⟩ := p
    by_cases hk : k = ev
    · simp [onReg, lookup, hk]
    · simp [onReg, lookup, hk, ih]

/-- Registering under one kind does not change the set of any other
kind. -/
theorem lookup_onReg_ne (ls : Listeners) (ev ev' : String) (c : Nat)
    (h : ev' ≠ ev) : lookup (onReg ls ev c) ev' = lookup ls ev' := by
  induction ls with
  | nil => simp [onReg, lookup, Ne.symm h]
  | cons p rest ih =>
    obtain ⟨k, s⟩ := p
    by_cases hk : k = ev
    · subst hk
      simp [onReg, lookup, Ne.symm h]
    · simp only [onReg, if_neg hk]
      by_cases hk' : k = ev'
      · simp [lookup, hk']
      · simp [lookup, hk', ih]

/-- Removing under a kind updates the set looked up at that kind by
`setDel`. -/
theorem lookup_offReg (ls : Listeners) (ev : String) (c : Nat) :
    lookup (offReg ls ev c) ev = setDel (lookup ls ev) c := by
  induction ls with
  | nil => simp [offReg, lookup, setDel]
  | cons p rest ih =>
    obtain ⟨k, s⟩ := p
    by_cases hk : k = ev
    · simp [offReg, lookup, hk]
    · simp [offReg, lookup, hk, ih]

/-- Removing under one kind does not change the set of any other kind. -/
theorem lookup_offReg_ne (ls : Listeners) (ev ev' : String) (c : Nat)
    (h : ev' ≠ ev) : lookup (offReg ls ev c) ev' = lookup ls ev' := by
  induction ls with
  | nil => simp [offReg]
  | cons p rest ih =>
    obtain ⟨k, s⟩ := p
    by_cases hk : k = ev
    · subst hk
      simp [offReg, lookup, Ne.symm h]
    · simp only [offReg, if_neg hk]
      by_cases hk' : k = ev'
      · simp [lookup, hk']
      · simp [lookup, hk', ih]

/-- The element added by `setAdd` is a member of the result. -/
theorem mem_setAdd_self (xs : List Nat) (c : Nat) : c ∈ setAdd xs c := by
  unfold setAdd
  by_cases h : c ∈ xs <;> simp [h]

/-- Lemma: `setAdd` is idempotent. -/
theorem setAdd_idem (xs : List Nat) (c : Nat) :
    setAdd (setAdd xs c) c = setAdd xs c := by
  have h := mem_setAdd_self xs c
  unfold setAdd
  by_cases hc : c ∈ xs <;> simp [hc] at h ⊢

/-- C8: subscriber registration has set semantics over callback identity:
registering the same callback reference twice under a kind leaves the
registry identical to registering it once; after one registration into a
duplicate-free set the kind holds the callback exactly once, so each
emission invokes it exactly once; `off` removes exactly that reference
from the set of that kind, touches no other kind, and is a no-op when the
reference is absent. -/
theorem C8_subscriber_set_semantics (ls : Listeners) (ev : String)
    (c : Nat) :
    onReg (onReg ls ev c) ev c = onReg ls ev c
    ∧ ((lookup ls ev).count c ≤ 1 →
        (lookup (onReg ls ev c) ev).count c = 1)
    ∧ lookup (offReg ls ev c) ev = (lookup ls ev).filter (fun x => x ≠ c)
    ∧ (∀ ev', ev' ≠ ev → lookup (offReg ls ev c) ev' = lookup ls ev')
    ∧ (c ∉ lookup ls ev → offReg ls ev c = ls) := by
  refine ⟨?_, ?_, ?_, ?_, ?_⟩
  · induction ls with
    | nil => simp [onReg, setAdd]
    | cons p rest ih =>
      obtain ⟨k, s⟩ := p
      by_cases hk : k = ev
      · simp [onReg, hk, setAdd_idem]
      · simp [onReg, hk, ih]
  · intro h
    rw [lookup_onReg]
    unfold setAdd
    by_cases hc : c ∈ lookup ls ev
    · have hpos : 0 < (lookup ls ev).count c := List.count_pos_iff.mpr hc
      simp only [if_pos hc]
      omega
    · have h0 : (lookup ls ev).count c = 0 := List.count_eq_zero.mpr hc
      simp [hc, List.count_append, h0]
  · rw [lookup_offReg]
    rfl
  · exact fun ev' h => lookup_offReg_ne ls ev ev' c h
  · intro h
    induction ls with
    | nil => rfl
    | cons p rest ih =>
      obtain ⟨k, s⟩ := p
      by_cases hk : k = ev
      · subst hk
        simp [lookup] at h
        simp [offReg, setDel]
        intro a ha hac
        exact h (hac ▸ ha)
      · simp only [lookup, if_neg hk] at h
        simp [offReg, hk, ih h]

/-- Witness for C8 at a concrete registry. -/
theorem C8_subscriber_set_semantics_witness :
    (lookup (onReg [("open", [7])] "message" 5) "message").count 5 = 1
    ∧ offReg [("open", [7])] "message" 5 = [("open", [7])] :=
  ⟨(C8_subscriber_set_semantics [("open", [7])] "message" 5).2.1 (by decide),
   (C8_subscriber_set_semantics [("open", [7])] "message" 5).2.2.2.2
     (by decide)⟩

/-- Against a fixed registry, one `emit` delivers to a wildcard subscriber
occurring exactly once in the wildcard set exactly one envelope, tagged
with the emitted kind and data. -/
theorem envelopesTo_emitCalls (ls : Listeners) (w : Nat) (ev : String)
    (d : EData) (hw : (lookup ls "*").count w = 1) :
    envelopesTo w (emitCalls ls ev d) = [(ev, d)] := by
  unfold envelopesTo emitCalls
  rw [List.filterMap_append, List.filterMap_map, List.filterMap_map]
  have h1 : (lookup ls ev).filterMap
      ((fun p => match p with
        | (c, Delivered.envelope k d) => if c = w then some (k, d) else none
        | _ => none) ∘ (fun c => (c, Delivered.direct d))) = [] := by
    rw [List.filterMap_eq_nil_iff]
    intro a _
    rfl
  have h2 : (lookup ls "*").filterMap
      ((fun p => match p with
        | (c, Delivered.envelope k d) => if c = w then some (k, d) else none
        | _ => none) ∘ (fun c => (c, Delivered.envelope ev d)))
      = [(ev, d)] := by
    have heq : ((fun p => match p with
        | (c, Delivered.envelope k d) => if c = w then some (k, d) else none
        | _ => none) ∘ (fun c => (c, Delivered.envelope ev d)))
        = fun c => if c = w then some (ev, d) else none := rfl
    rw [heq]
    exact filterMap_ite_one (lookup ls "*") w (ev, d) hw
  rw [h1, h2]
  rfl

/-- C9: one `emit(kind, data)` invokes every subscriber of the kind with
the data and then every wildcard subscriber with the `(kind, data)`
envelope, all inside the call (the fan-out is exactly the direct
deliveries followed by the envelope deliveries); and against a fixed
registry, a wildcard subscriber occurring exactly once in the wildcard set
receives, over any sequence of emissions, exactly one envelope per
emission, each tagging the emitted kind and data in order. -/
theorem C9_emit_fanout (ls : Listeners) (ev : String) (d : EData) (w : Nat)
    (es : List (String × EData)) (hw : (lookup ls "*").count w = 1) :
    (∀ c ∈ lookup ls ev, (c, Delivered.direct d) ∈ emitCalls ls ev d)
    ∧ (∀ c ∈ lookup ls "*",
        (c, Delivered.envelope ev d) ∈ emitCalls ls ev d)
    ∧ emitCalls ls ev d
        = (lookup ls ev).map (fun c => (c, Delivered.direct d))
          ++ (lookup ls "*").map (fun c => (c, Delivered.envelope ev d))
    ∧ envelopesTo w (emitAll ls es) = es := by
  refine ⟨?_, ?_, rfl, ?_⟩
  · intro c hc
    unfold emitCalls
    exact List.mem_append_left _ (List.mem_map_of_mem _ hc)
  · intro c hc
    unfold emitCalls
    exact List.mem_append_right _ (List.mem_map_of_mem _ hc)
  · induction es with
    | nil => rfl
    | cons e rest ih =>
      obtain ⟨k, d'⟩ := e
      unfold emitAll envelopesTo
      rw [List.filterMap_append]
      have h1 := envelopesTo_emitCalls ls w k d' hw
      unfold envelopesTo at h1 ih
      rw [h1, ih]
      rfl

/-- Witness for C9: a wildcard subscriber and three emissions of
different kinds. -/
theorem C9_emit_fanout_witness :
    envelopesTo 9 (emitAll [("*", [9])]
        [("open", EData.noData), ("close", EData.noData),
         ("message", EData.msg "x")])
      = [("open", EData.noData), ("close", EData.noData),
         ("message", EData.msg "x")] :=
  (C9_emit_fanout [("*", [9])] "open" EData.noData 9
    [("open", EData.noData), ("close", EData.noData),
     ("message", EData.msg "x")] (by decide)).2.2.2

end Socketly
